import Mathlib

set_option maxHeartbeats 2000000
set_option maxRecDepth 20000

/-!
Verification development for `check_pages.py`, a scheduled bulletin-board
change detector: per-site HTML extraction, id-based novelty detection, and
persisted seen-state reconciliation.

The Python source is shallowly embedded as executable Lean functions.
External collaborators are modelled abstractly:
* `urljoin` (Python stdlib) is an abstract function parameter `uj`;
* the HTTP fetch is an oracle `Nat → Fetched` giving the outcome of each
  `fetch_html` call (the transport layer with its retries is out of scope);
* the Telegram post transport is an oracle `Nat → Bool` (k-th send delivered?);
* BeautifulSoup documents are modelled by the `Soup` structure, which records
  exactly the projections the program reads: `<tr>` rows with the stripped
  texts of their `<td>` cells and their descendant `<a>` elements, and the
  flat list of all `<a>` elements each with its nearest enclosing `<tr>`.
Logging (`print`) and timing (`time.sleep`) are omitted; the `debug` flag of
the parsers only affects logging, so it is carried but unused.
-/

/-- `List.isPrefixOf` for chars, written out so kernel evaluation is direct. -/
def isPreOf : List Char → List Char → Bool
  | [], _ => true
  | _ :: _, [] => false
  | a :: as, b :: bs => a == b && isPreOf as bs

/-- Python `needle in haystack` on strings (substring containment), on char lists. -/
def subList (nd : List Char) : List Char → Bool
  | [] => nd.isEmpty
  | c :: rest => isPreOf nd (c :: rest) || subList nd rest

/-- Python `needle in s` substring test. -/
def strContains (needle s : String) : Bool := subList needle.data s.data

/-- Python `s.lower()` (ASCII case folding; the hrefs involved are ASCII). -/
def strLower (s : String) : String := ⟨s.data.map Char.toLower⟩

/-- Python `s.startswith(pre)`. -/
def strStartsWith (pre s : String) : Bool := isPreOf pre.data s.data

/-- Lexicographic `<` on char lists by code point: Python string comparison. -/
def listLt : List Char → List Char → Bool
  | _, [] => false
  | [], _ :: _ => true
  | a :: as, b :: bs =>
    if a.toNat < b.toNat then true
    else if b.toNat < a.toNat then false
    else listLt as bs

/-- Python `a < b` on strings. -/
def pyStrLt (a b : String) : Bool := listLt a.data b.data

/-- Python `s.strip()` (whitespace at both ends). -/
def pyStrip (s : String) : String :=
  ⟨((s.data.dropWhile Char.isWhitespace).reverse.dropWhile Char.isWhitespace).reverse⟩

/-- Python `s.isdigit()`: nonempty and all digits. -/
def pyIsDigit (s : String) : Bool := !s.data.isEmpty && s.data.all Char.isDigit

/-- Python `int(s)` on the digit-only strings this program feeds it. -/
def pyInt (s : String) : Nat := s.data.foldl (fun n c => n * 10 + (c.toNat - 48)) 0

/-- Decimal digits of a Nat (fuel-structural so the kernel evaluates it). -/
def natReprAux : Nat → Nat → List Char
  | 0, _ => []
  | fuel + 1, n =>
    if n < 10 then [Char.ofNat (48 + n)]
    else natReprAux fuel (n / 10) ++ [Char.ofNat (48 + n % 10)]

/-- Python `str(n)` for a natural number. -/
def natRepr (n : Nat) : String := ⟨natReprAux (n + 1) n⟩

/-- Python `str(n)` for an integer (JSON numbers in the state file). -/
def intRepr : Int → String
  | .ofNat n => natRepr n
  | .negSucc n => ⟨Char.ofNat 45 :: (natRepr (n + 1)).data⟩

/-- Is this char a single or double quote (the regex class in pass 1's onclick rule)? -/
def isQuoteChar (c : Char) : Bool := c == Char.ofNat 39 || c == Char.ofNat 34

/-- One attempt of the regex `['"]([^'"]+)['"]` at the head of the list:
a quote char, then a maximal nonempty run of non-quote chars, then a quote char. -/
def quotedAt : List Char → Option String
  | [] => none
  | c :: rest =>
    if isQuoteChar c then
      let run := rest.takeWhile (fun d => !isQuoteChar d)
      if run.isEmpty then none
      else
        match rest.drop run.length with
        | d :: _ => if isQuoteChar d then some ⟨run⟩ else none
        | [] => none
    else none

/-- `re.search(r"['\x22]([^'\x22]+)['\x22]", s)`: leftmost quoted literal, if any. -/
def findQuoted : List Char → Option String
  | [] => none
  | c :: rest =>
    match quotedAt (c :: rest) with
    | some r => some r
    | none => findQuoted rest

/-- One attempt of the regex `[?&]name=(\d+)` at the head of the list
(`pname` is the literal `name=` part). -/
def paramAt (pname : List Char) : List Char → Option String
  | [] => none
  | c :: rest =>
    if (c == '?' || c == '&') && isPreOf pname rest then
      let ds := (rest.drop pname.length).takeWhile Char.isDigit
      if ds.isEmpty then none else some ⟨ds⟩
    else none

/-- `re.search(r'[?&]name=(\d+)', s)`: leftmost match, greedy digit capture. -/
def findParamNum (pname : List Char) : List Char → Option String
  | [] => none
  | c :: rest =>
    match paramAt pname (c :: rest) with
    | some r => some r
    | none => findParamNum pname rest

/-- `re.sub(alt1|alt2|..., '', s)` / chained `str.replace(lit, '')`:
single left-to-right pass deleting each leftmost occurrence of any
alternative (fuel-structural; fuel starts at the list length, and every
step consumes at least one char, so fuel never runs out). -/
def reSubAux (alts : List (List Char)) : Nat → List Char → List Char
  | 0, _ => []
  | _, [] => []
  | fuel + 1, c :: rest =>
    match alts.find? (fun a => !a.isEmpty && isPreOf a (c :: rest)) with
    | some a => reSubAux alts fuel (rest.drop (a.length - 1))
    | none => c :: reSubAux alts fuel rest

/-- Delete every occurrence of any of the literal strings `alts` from `s`. -/
def reSubStr (alts : List String) (s : String) : String :=
  ⟨reSubAux (alts.map String.data) s.data.length s.data⟩

/-- Insertion step of Python's stable sort: the (earlier) element `a` moves
right past `b` exactly while `cont a b` holds. -/
def pyInsert {α : Type} (cont : α → α → Bool) (a : α) : List α → List α
  | [] => [a]
  | b :: l => if cont a b then b :: pyInsert cont a l else a :: b :: l

/-- Python's stable `sorted` / `list.sort`, as insertion sort: with
`cont a b := keyOf a < keyOf b` this is a stable descending sort, with
`cont a b := keyOf b < keyOf a` a stable ascending sort. -/
def pySort {α : Type} (cont : α → α → Bool) : List α → List α
  | [] => []
  | a :: l => pyInsert cont a (pySort cont l)

/-- One detected notice (`@dataclass Item`). -/
structure Item where
  item_id : String
  title : String
  url : String
deriving DecidableEq, Repr

/-- Numeric sort key `int(it.item_id)` used throughout the source. -/
def pyIntId (it : Item) : Nat := pyInt it.item_id

/-- Comparison for `sorted(..., key=lambda it: int(it.item_id), reverse=True)`. -/
def descNumCont (a b : Item) : Bool := pyIntId a < pyIntId b

/-- Comparison for `new_items.sort(key=lambda it: int(it.item_id))` (ascending). -/
def ascNumCont (a b : Item) : Bool := pyIntId b < pyIntId a

/-- Comparison for `sorted(v, reverse=True)` on strings (`save_state`). -/
def descStrCont (a b : String) : Bool := pyStrLt a b

/-- An `<a>` element, with the attributes and text the program reads. -/
structure Anchor where
  href : Option String
  onclick : Option String
  text : String
deriving DecidableEq, Repr

/-- A `<tr>` element: stripped texts of its `<td>` cells, and its `<a>`
descendants in document order (`tr.find("a")` is the head). -/
structure Row where
  tds : List String
  anchors : List Anchor
deriving DecidableEq, Repr

/-- A parsed page: `soup.find_all("tr")` and `soup.find_all("a")` (each `<a>`
paired with its `find_parent("tr")`). -/
structure Soup where
  trs : List Row
  allAs : List (Anchor × Option Row)
deriving DecidableEq, Repr

/-- `items_by_id`: a Python dict keyed by item id, insertion-ordered. -/
abbrev PyDict : Type := List (String × Item)

/-- Python dict assignment `d[k] = v`: replaces in place (keeping the key's
original position) or appends. -/
def dictInsert (k : String) (v : Item) : PyDict → PyDict
  | [] => [(k, v)]
  | (k', v') :: d => if k' = k then (k', v) :: d else (k', v') :: dictInsert k v d

/-- `items_by_id.values()` in insertion order. -/
def dictValues (d : PyDict) : List Item := d.map Prod.snd

/-- Shared tail of every extraction strategy:
`sorted(items_by_id.values(), key=lambda it: int(it.item_id), reverse=True)[:latest_n]`. -/
def finalize (d : PyDict) (latest_n : Nat) : List Item :=
  (pySort descNumCont (dictValues d)).take latest_n

/-- Loop body of `parse_nid_or_kr` (치매안심센터): anchors whose href contains
`recruit_view.aspx` and `no=`; id from `[?&]no=(\d+)`; title stripped of the
`[채용중]`/`[채용종료]` tags; href resolved against the page's final URL. -/
def nidStep (uj : String → String → String) (base_url : String) (d : PyDict) (a : Anchor) :
    PyDict :=
  if strContains "recruit_view.aspx" (a.href.getD "") && strContains "no=" (a.href.getD "") then
    match findParamNum "no=".data (a.href.getD "").data with
    | none => d
    | some item_id =>
      if pyStrip (reSubStr ["[채용중]", "[채용종료]"] a.text) = "" then d
      else
        dictInsert item_id
          ⟨item_id, pyStrip (reSubStr ["[채용중]", "[채용종료]"] a.text),
            uj base_url (a.href.getD "")⟩ d
  else d

/-- `parse_nid_or_kr`: iterate `soup.find_all("a", href=True)`. -/
def parse_nid_or_kr (uj : String → String → String) (soup : Soup) (base_url : String)
    (latest_n : Nat) (_dbg : Bool) : List Item :=
  finalize (((soup.allAs.map Prod.fst).filter (fun a => a.href.isSome)).foldl
    (nidStep uj base_url) []) latest_n

/-- Loop body of `parse_health_suwon` (수원시보건소): `board_view.asp` links,
id from `[?&]no=(\d+)`, no title cleaning. -/
def suwonStep (uj : String → String → String) (base_url : String) (d : PyDict) (a : Anchor) :
    PyDict :=
  if strContains "board_view.asp" (a.href.getD "") && strContains "no=" (a.href.getD "") then
    match findParamNum "no=".data (a.href.getD "").data with
    | none => d
    | some item_id =>
      if a.text = "" then d
      else dictInsert item_id ⟨item_id, a.text, uj base_url (a.href.getD "")⟩ d
  else d

/-- `parse_health_suwon`. -/
def parse_health_suwon (uj : String → String → String) (soup : Soup) (base_url : String)
    (latest_n : Nat) (_dbg : Bool) : List Item :=
  finalize (((soup.allAs.map Prod.fst).filter (fun a => a.href.isSome)).foldl
    (suwonStep uj base_url) []) latest_n

/-- Loop body of `parse_hs4u` (화성시장애아동재활센터): `subAct=view` / `seq=`
links, id from `[?&]seq=(\d+)`, icon tags removed by chained `str.replace`. -/
def hs4uStep (uj : String → String → String) (base_url : String) (d : PyDict) (a : Anchor) :
    PyDict :=
  if strContains "subAct=view" (a.href.getD "") && strContains "seq=" (a.href.getD "") then
    match findParamNum "seq=".data (a.href.getD "").data with
    | none => d
    | some item_id =>
      if pyStrip (reSubStr ["[다운로드]"]
          (reSubStr ["[이미지]"] (reSubStr ["[새글]"] a.text))) = "" then d
      else
        dictInsert item_id
          ⟨item_id,
            pyStrip (reSubStr ["[다운로드]"] (reSubStr ["[이미지]"] (reSubStr ["[새글]"] a.text))),
            uj base_url (a.href.getD "")⟩ d
  else d

/-- `parse_hs4u`. -/
def parse_hs4u (uj : String → String → String) (soup : Soup) (base_url : String)
    (latest_n : Nat) (_dbg : Bool) : List Item :=
  finalize (((soup.allAs.map Prod.fst).filter (fun a => a.href.isSome)).foldl
    (hs4uStep uj base_url) []) latest_n

/-- The placeholder hrefs of pass 1 of the generic table extractor. -/
def placeholderHrefs : List String := ["#", "javascript:void(0);", "javascript:void(0)"]

/-- The `full_url` computation of pass 1, on the stripped `href`/`onclick`
attribute values: a real (non-empty, non-placeholder, non-`javascript:`)
href is resolved against the final URL, else a quoted onclick literal is,
else the target list URL is used. -/
def rowFullUrl (uj : String → String → String) (target_url final_url href onclick : String) :
    String :=
  if href ≠ "" && !placeholderHrefs.contains href
      && !strStartsWith "javascript:" (strLower href) then
    uj final_url href
  else
    match findQuoted onclick.data with
    | some u => uj final_url u
    | none => target_url

/-- Pass 1 loop body of the generic table extractor: rows whose first `<td>`
text is numeric, with a titled first `<a>`. -/
def genericRowStep (uj : String → String → String) (target_url final_url : String)
    (d : PyDict) (tr : Row) : PyDict :=
  if tr.tds.isEmpty then d
  else if !pyIsDigit (tr.tds.headD "") then d
  else
    match tr.anchors.head? with
    | none => d
    | some a =>
      if a.text = "" then d
      else
        dictInsert (tr.tds.headD "")
          ⟨tr.tds.headD "", a.text,
            rowFullUrl uj target_url final_url (pyStrip (a.href.getD ""))
              (pyStrip (a.onclick.getD ""))⟩ d

/-- The `full_url` computation of pass 2 (no placeholder list, no onclick). -/
def anchorFullUrl (uj : String → String → String) (target_url final_url href : String) :
    String :=
  if href ≠ "" && !strStartsWith "javascript:" (strLower href) then uj final_url href
  else target_url

/-- Pass 2 loop body (runs only when pass 1 found nothing): every titled `<a>`,
walking up to its parent `<tr>`. -/
def genericAnchorStep (uj : String → String → String) (target_url final_url : String)
    (d : PyDict) (ap : Anchor × Option Row) : PyDict :=
  if ap.1.text = "" then d
  else
    match ap.2 with
    | none => d
    | some tr =>
      if tr.tds.isEmpty then d
      else if !pyIsDigit (tr.tds.headD "") then d
      else
        dictInsert (tr.tds.headD "")
          ⟨tr.tds.headD "", ap.1.text,
            anchorFullUrl uj target_url final_url (pyStrip (ap.1.href.getD ""))⟩ d

/-- The generic extractor's `items_by_id` after both passes. -/
def genericDict (uj : String → String → String) (target_url final_url : String)
    (soup : Soup) : PyDict :=
  if (soup.trs.foldl (genericRowStep uj target_url final_url) []).isEmpty then
    soup.allAs.foldl (genericAnchorStep uj target_url final_url) []
  else soup.trs.foldl (genericRowStep uj target_url final_url) []

/-- `parse_html_list_number_id`: route by URL substring to a site parser, else
run the generic two-pass table extractor. The fetch that opens the Python
function is external; its outcome `(final_url, soup)` is passed in. -/
def parse_html_list_number_id (uj : String → String → String) (target_url : String)
    (latest_n : Nat) (final_url : String) (soup : Soup) (dbg : Bool) : List Item :=
  if strContains "nid.or.kr" target_url then parse_nid_or_kr uj soup final_url latest_n dbg
  else if strContains "health.suwon.go.kr" target_url then
    parse_health_suwon uj soup final_url latest_n dbg
  else if strContains "hs4u.or.kr" target_url then parse_hs4u uj soup final_url latest_n dbg
  else finalize (genericDict uj target_url final_url soup) latest_n

/-- Modelled from the spec: claim C5's stated URL-resolution precedence for a
row accepted by pass 1 — (a) a non-empty href that is none of the placeholders
`#`, `javascript:void(0);`, `javascript:void(0)` and does not start
case-insensitively with `javascript:` is resolved against the final URL;
(b) else a quoted literal inside onclick is resolved against the final URL;
(c) else the original target list URL is used. -/
def specResolveUrl (uj : String → String → String) (target_url final_url href onclick : String) :
    String :=
  if href ≠ "" && !(href == "#") && !(href == "javascript:void(0);")
      && !(href == "javascript:void(0)")
      && !strStartsWith "javascript:" (strLower href) then
    uj final_url href
  else
    match findQuoted onclick.data with
    | some lit => uj final_url lit
    | none => target_url

/-- The in-memory state: Python dict from target name to its seen-id set
(sets are modelled as duplicate-free lists; only membership is meaningful). -/
abbrev PyState : Type := List (String × List String)

/-- Python `state.get(name, ...)` lookup. -/
def pyLookup (k : String) : PyState → Option (List String)
  | [] => none
  | (k', v) :: st => if k' = k then some v else pyLookup k st

/-- Python `state[name] = v`. -/
def pyDictSet (k : String) (v : List String) : PyState → PyState
  | [] => [(k, v)]
  | (k', v') :: st => if k' = k then (k', v) :: st else (k', v') :: pyDictSet k v st

/-- Python `x in s` for a set of strings. -/
def pyMem (x : String) : List String → Bool
  | [] => false
  | y :: s => x == y || pyMem x s

/-- Python `s.add(x)` on a set. -/
def pySetAdd (x : String) (s : List String) : List String :=
  if pyMem x s then s else s ++ [x]

/-- Add a list of ids to a set, in order. -/
def addAll (s : List String) (ids : List String) : List String :=
  ids.foldl (fun s x => pySetAdd x s) s

/-- Python `set(l)`. -/
def pySetOfList (l : List String) : List String := addAll [] l

/-- `save_state`'s per-target trimming:
`list(sorted(v, reverse=True))[:3000]` — a *string* sort, descending. -/
def save_compact_entry (v : List String) : List String :=
  (pySort descStrCont v).take 3000

/-- `save_state`: the `compact` mapping that is serialized to `state.json`
(the file write itself is I/O and out of scope). -/
def save_state (st : PyState) : List (String × List String) :=
  st.map (fun kv => (kv.1, save_compact_entry kv.2))

/-- A JSON scalar as found in a stored per-target id list. -/
inductive JVal where
  | s (v : String)
  | n (v : Int)
deriving DecidableEq, Repr

/-- Python `str(x)` on a JSON-decoded list element. -/
def pyStrOfJVal : JVal → String
  | .s v => v
  | .n v => intRepr v

/-- `load_state`'s per-target coercion: `set(map(str, v))`. -/
def load_state_entry (v : List JVal) : List String := pySetOfList (v.map pyStrOfJVal)

/-- `load_state` on a successfully JSON-decoded snapshot
(`{k: set(map(str, v)) for k, v in raw.items()}`); a missing or malformed
file yields `{}` instead, i.e. the run never fails on loading. -/
def load_state (raw : List (String × List JVal)) : PyState :=
  raw.map (fun kv => (kv.1, load_state_entry kv.2))

/-- Outcome of one `fetch_html` call (the transport layer, with its internal
retries, is an external collaborator: it returns the final post-redirect URL
and the parsed page, or raises a timeout or HTTP error). -/
inductive Fetched where
  | ok (final_url : String) (soup : Soup)
  | timeout
  | httpError
deriving Repr

/-- The exception kinds that can cross `run_target`'s boundary, as `main`
distinguishes them: `requests` timeouts, `requests` HTTP errors (fetch
non-2xx, or the Telegram post's `raise_for_status`), the `RuntimeError`
raised on parse failure, the `RuntimeError` raised by `telegram_send` on
empty credentials, and the `ValueError` for an unsupported target type. -/
inductive RunErr where
  | timeout
  | httpError
  | parseFail
  | credsMissing
  | valueError
deriving DecidableEq, Repr

/-- `telegram_send`: raises at once when `BOT_TOKEN`/`CHAT_ID` are empty
(`creds = false`), before any transport attempt; otherwise posts, and a
non-2xx response raises via `raise_for_status`. -/
def telegram_send (creds : Bool) (postOk : Bool) : Option RunErr :=
  if !creds then some .credsMissing
  else if postOk then none else some .httpError

/-- Result of the per-target notification loop: the seen set after in-place
`seen.add` calls, the items whose send succeeded, how many sends were
attempted (i.e. `telegram_send` invocations), and the first exception. -/
structure NotifyRes where
  seen : List String
  sent : List Item
  attempts : Nat
  err : Option RunErr
deriving DecidableEq, Repr

/-- The `for it in new_items:` loop of `run_target`: send, then mark seen;
an exception aborts the rest of the batch. `k` is the message index used by
the send oracle. -/
def notifyLoop (creds : Bool) (sendRes : Nat → Bool) (seen : List String) :
    List Item → Nat → NotifyRes
  | [], _ => ⟨seen, [], 0, none⟩
  | it :: rest, k =>
    match telegram_send creds (sendRes k) with
    | some e => ⟨seen, [], 1, some e⟩
    | none =>
      let r := notifyLoop creds sendRes (pySetAdd it.item_id seen) rest (k + 1)
      ⟨r.seen, it :: r.sent, r.attempts + 1, r.err⟩

/-- One configured target, with the fields `run_target` reads
(`name`, `url`, `type`, `latest_n`). -/
structure Target where
  name : String
  url : String
  ttype : String
  latest_n : Nat
deriving DecidableEq, Repr

/-- Result of one `run_target` call: the state mapping after the call, the
successfully notified items, the send attempts, the parse calls that were
started (their `debug` flags, in order), and the exception that escaped. -/
structure RTRes where
  state : PyState
  sent : List Item
  attempts : Nat
  parseCalls : List Bool
  err : Option RunErr
deriving DecidableEq

/-- `new_items = [it for it in items if it.item_id not in seen]`. -/
def new_items (items : List Item) (seen : List String) : List Item :=
  items.filter (fun it => !pyMem it.item_id seen)

/-- `new_items.sort(key=lambda it: int(it.item_id))`: the notification order. -/
def sortedNewItems (items : List Item) (seen : List String) : List Item :=
  pySort ascNumCont (new_items items seen)

/-- The notification phase of `run_target`, after items were extracted.
`hasKey` records whether `name` was a key of `state`: if so, the Python
`seen` object *is* `state[name]` and every in-place `seen.add` is visible in
`state` even when a later send raises; if not, `seen` is a fresh set that is
published only by the final `state[name] = seen`, which an exception skips. -/
def runNotifyPhase (creds : Bool) (sendRes : Nat → Bool) (name : String) (hasKey : Bool)
    (seen : List String) (state : PyState) (pcs : List Bool) (items : List Item) : RTRes :=
  if (new_items items seen).isEmpty then ⟨state, [], 0, pcs, none⟩
  else
    let r := notifyLoop creds sendRes seen (sortedNewItems items seen) 0
    match r.err with
    | none => ⟨pyDictSet name r.seen state, r.sent, r.attempts, pcs, none⟩
    | some e =>
      ⟨if hasKey then pyDictSet name r.seen state else state, r.sent, r.attempts, pcs, some e⟩

/-- `run_target`: reject unsupported types; fetch and extract; on an empty
extraction, re-attempt once with debug instrumentation and raise a
`RuntimeError` if still empty; diff against the seen set; notify new items
oldest-first. `fetch n` is the outcome of the (n+1)-th `fetch_html` call. -/
def run_target (uj : String → String → String) (creds : Bool) (fetch : Nat → Fetched)
    (sendRes : Nat → Bool) (target : Target) (state : PyState) : RTRes :=
  if target.ttype ≠ "html_list_number_id" then ⟨state, [], 0, [], some .valueError⟩
  else
    let name := target.name
    let hasKey := (pyLookup name state).isSome
    let seen := (pyLookup name state).getD []
    match fetch 0 with
    | .timeout => ⟨state, [], 0, [false], some .timeout⟩
    | .httpError => ⟨state, [], 0, [false], some .httpError⟩
    | .ok fu soup =>
      let items := parse_html_list_number_id uj target.url target.latest_n fu soup false
      if items.isEmpty then
        match fetch 1 with
        | .timeout => ⟨state, [], 0, [false, true], some .timeout⟩
        | .httpError => ⟨state, [], 0, [false, true], some .httpError⟩
        | .ok fu2 soup2 =>
          let items2 := parse_html_list_number_id uj target.url target.latest_n fu2 soup2 true
          if items2.isEmpty then ⟨state, [], 0, [false, true], some .parseFail⟩
          else runNotifyPhase creds sendRes name hasKey seen state [false, true] items2
      else runNotifyPhase creds sendRes name hasKey seen state [false] items

/-- Observable run events: a target attempt, and a state-store save. -/
inductive Ev where
  | attempt (name : String)
  | save (compact : List (String × List String))
deriving DecidableEq, Repr

/-- Result of a whole run. -/
structure MainRes where
  state : PyState
  errors : List RunErr
  trace : List Ev
deriving DecidableEq

/-- The `for i, target in enumerate(targets):` loop of `main`: every
exception from `run_target` is caught at the per-target boundary and
collected; the loop always continues with the next target. -/
def mainLoop (uj : String → String → String) (creds : Bool) (fetch : Nat → Nat → Fetched)
    (sendRes : Nat → Nat → Bool) :
    List Target → Nat → PyState → List RunErr → PyState × List RunErr × List Ev
  | [], _, st, errs => (st, errs, [])
  | t :: ts, i, st, errs =>
    let r := run_target uj creds (fetch i) (sendRes i) t st
    let errs' := match r.err with | none => errs | some e => errs ++ [e]
    let rest := mainLoop uj creds fetch sendRes ts (i + 1) r.state errs'
    (rest.1, rest.2.1, .attempt t.name :: rest.2.2)

/-- `main` (named `pymain` since Lean reserves `main` for executables):
abort (`RuntimeError`) when no targets are configured, else run
every target and save the state exactly once at the end. The optional error
digest sent afterwards is neither an attempt nor a save and is not traced. -/
def pymain (uj : String → String → String) (creds : Bool) (fetch : Nat → Nat → Fetched)
    (sendRes : Nat → Nat → Bool) (targets : List Target) (state0 : PyState) :
    Option MainRes :=
  if targets.isEmpty then none
  else
    let r := mainLoop uj creds fetch sendRes targets 0 state0 []
    some ⟨r.1, r.2.1, r.2.2 ++ [.save (save_state r.1)]⟩

/-- A concrete stand-in for `urljoin` in fully evaluated witnesses. -/
def ujEx (base rel : String) : String := base ++ rel

/-- The id `1` followed by `k` zeros (numerically `10^k`). -/
def c1id (k : Nat) : String := ⟨Char.ofNat 49 :: List.replicate k (Char.ofNat 48)⟩

/-- 3001 distinct ids: `9` and `10^k` for `k = 1..3000`, listed in descending
string order. Numerically, `9` is the smallest member; lexicographically it
is the largest, so `save_state`'s string-based trimming keeps it and drops
`10` (the numerically larger `c1id 1`). -/
def c1ex : List String := "9" :: (List.range 3000).map (fun i => c1id (3000 - i))

/-- A single-quote character, built by code point. -/
def quoteS : String := ⟨[Char.ofNat 39]⟩

/-- The spec's own onclick example: `go('view.php?id=42')`. -/
def onclickC5 : String := "go(" ++ quoteS ++ "view.php?id=42" ++ quoteS ++ ")"

/-- The spec's example row: placeholder href plus an onclick deep link. -/
def rowC5 : Row := ⟨["42"], [⟨some "javascript:void(0)", some onclickC5, "T"⟩]⟩

/-- A generic two-item board page (ids 10 and 11). -/
def soupEx : Soup :=
  ⟨[⟨["10"], [⟨some "view.php?id=10", none, "Notice A"⟩]⟩,
    ⟨["11"], [⟨some "view.php?id=11", none, "Notice B"⟩]⟩], []⟩

/-- A page on which both generic passes find nothing. -/
def soupEmptyEx : Soup := ⟨[], []⟩

/-- A generic-routed target. -/
def targetEx : Target := ⟨"t1", "http://example.com/list", "html_list_number_id", 30⟩

/-- A second generic-routed target. -/
def targetEx2 : Target := ⟨"t2", "http://example.org/board", "html_list_number_id", 30⟩

/-- Fetch oracle: every fetch returns the two-item page. -/
def fetchExOk : Nat → Fetched := fun _ => .ok "http://example.com/list" soupEx

/-- Fetch oracle: every fetch returns the empty page. -/
def fetchExEmpty : Nat → Fetched := fun _ => .ok "http://example.com/list" soupEmptyEx

/-- Send oracle: the first send fails, all later ones would succeed. -/
def sendFail0 : Nat → Bool := fun k => decide (k ≠ 0)

/-- Send oracle: the first send succeeds, all later ones fail. -/
def sendOk0 : Nat → Bool := fun k => decide (k = 0)

/-- Send oracle: every send succeeds. -/
def sendAllOk : Nat → Bool := fun _ => true

/-- Two fresh items, extractor-ordered (descending ids). -/
def itemsC3 : List Item :=
  [⟨"11", "B", "u11"⟩, ⟨"10", "A", "u10"⟩, ⟨"7", "C", "u7"⟩]

/-- Invariant of an `items_by_id` dict: keys are distinct, and each stored
item's `item_id` equals its key. -/
def DictInv (d : PyDict) : Prop :=
  (d.map Prod.fst).Nodup ∧ ∀ p ∈ d, (Prod.snd p).item_id = Prod.fst p

/-- Claim C4's contract for an extraction result with cap `latest_n`:
bounded length, pairwise-distinct ids, and numerically descending order. -/
def ExtractionOK (latest_n : Nat) (l : List Item) : Prop :=
  l.length ≤ latest_n ∧ (l.map Item.item_id).Nodup ∧
    l.Pairwise (fun x y => pyIntId y ≤ pyIntId x)

theorem pyInsert_perm {α : Type} (cont : α → α → Bool) (a : α) (l : List α) :
    (pyInsert cont a l).Perm (a :: l) := by
  induction l with
  | nil => exact List.Perm.refl _
  | cons b t ih =>
    unfold pyInsert
    split
    · exact (List.Perm.cons b ih).trans (List.Perm.swap a b t)
    · exact List.Perm.refl _

theorem pySort_perm {α : Type} (cont : α → α → Bool) (l : List α) :
    (pySort cont l).Perm l := by
  induction l with
  | nil => exact List.Perm.refl _
  | cons a t ih =>
    unfold pySort
    exact (pyInsert_perm cont a (pySort cont t)).trans (List.Perm.cons a ih)

theorem pyInsert_pairwise {α : Type} (cont : α → α → Bool)
    (hasym : ∀ x y, cont x y = true → cont y x = false)
    (hnt : ∀ x y z, cont x y = false → cont y z = false → cont x z = false)
    (a : α) (l : List α) (hl : l.Pairwise (fun x y => cont x y = false)) :
    (pyInsert cont a l).Pairwise (fun x y => cont x y = false) := by
  induction l with
  | nil => simp [pyInsert]
  | cons b t ih =>
    rcases List.pairwise_cons.mp hl with ⟨hb, ht⟩
    unfold pyInsert
    by_cases h : cont a b = true
    · simp only [h, if_true]
      refine List.pairwise_cons.mpr ⟨?_, ih ht⟩
      intro y hy
      rcases List.mem_cons.mp ((pyInsert_perm cont a t).mem_iff.mp hy) with rfl | hy2
      · exact hasym _ _ h
      · exact hb y hy2
    · simp only [h, if_false]
      have h0 : cont a b = false := Bool.eq_false_iff.mpr h
      refine List.pairwise_cons.mpr ⟨?_, hl⟩
      intro y hy
      rcases List.mem_cons.mp hy with rfl | hy2
      · exact h0
      · exact hnt a b y h0 (hb y hy2)

theorem pySort_pairwise {α : Type} (cont : α → α → Bool)
    (hasym : ∀ x y, cont x y = true → cont y x = false)
    (hnt : ∀ x y z, cont x y = false → cont y z = false → cont x z = false)
    (l : List α) : (pySort cont l).Pairwise (fun x y => cont x y = false) := by
  induction l with
  | nil => simp [pySort]
  | cons a t ih => exact pyInsert_pairwise cont hasym hnt a (pySort cont t) ih

theorem listLt_asymm : ∀ a b : List Char, listLt a b = true → listLt b a = false := by
  intro a
  induction a with
  | nil =>
    intro b h
    cases b with
    | nil => simp [listLt] at h
    | cons y ys => simp [listLt]
  | cons x xs ih =>
    intro b h
    cases b with
    | nil => simp [listLt] at h
    | cons y ys =>
      simp only [listLt] at h ⊢
      split_ifs at h ⊢ <;> first | rfl | omega | exact ih ys h

theorem listLt_negtrans : ∀ a b c : List Char,
    listLt a b = false → listLt b c = false → listLt a c = false := by
  intro a
  induction a with
  | nil =>
    intro b c h1 h2
    cases b with
    | nil => exact h2
    | cons y ys =>
      cases c with
      | nil => simp [listLt]
      | cons z zs => simp [listLt] at h1
  | cons x xs ih =>
    intro b c h1 h2
    cases b with
    | nil =>
      cases c with
      | nil => simp [listLt]
      | cons z zs => simp [listLt] at h2
    | cons y ys =>
      cases c with
      | nil => simp [listLt]
      | cons z zs =>
        simp only [listLt] at h1 h2 ⊢
        split_ifs at h1 h2 ⊢ <;> first | rfl | omega | exact ih ys zs h1 h2

theorem descStrCont_asymm (x y : String) : descStrCont x y = true → descStrCont y x = false :=
  listLt_asymm x.data y.data

theorem descStrCont_negtrans (x y z : String) :
    descStrCont x y = false → descStrCont y z = false → descStrCont x z = false :=
  listLt_negtrans x.data y.data z.data

theorem descNumCont_asymm (x y : Item) : descNumCont x y = true → descNumCont y x = false := by
  simp only [descNumCont, decide_eq_true_eq, decide_eq_false_iff_not]
  omega

theorem descNumCont_negtrans (x y z : Item) :
    descNumCont x y = false → descNumCont y z = false → descNumCont x z = false := by
  simp only [descNumCont, decide_eq_false_iff_not]
  omega

theorem ascNumCont_asymm (x y : Item) : ascNumCont x y = true → ascNumCont y x = false := by
  simp only [ascNumCont, decide_eq_true_eq, decide_eq_false_iff_not]
  omega

theorem ascNumCont_negtrans (x y z : Item) :
    ascNumCont x y = false → ascNumCont y z = false → ascNumCont x z = false := by
  simp only [ascNumCont, decide_eq_false_iff_not]
  omega

theorem dictInsert_keys_sub (k : String) (v : Item) :
    ∀ (d : PyDict) (x : String), x ∈ (dictInsert k v d).map Prod.fst →
      x = k ∨ x ∈ d.map Prod.fst := by
  intro d
  induction d with
  | nil =>
    intro x hx
    simp [dictInsert] at hx
    exact Or.inl hx
  | cons p d ih =>
    intro x hx
    obtain ⟨k1, v1⟩ := p
    by_cases h : k1 = k
    · simp only [dictInsert, if_pos h, List.map_cons, List.mem_cons] at hx
      rcases hx with rfl | hx
      · exact Or.inr (by simp)
      · exact Or.inr (by simp [hx])
    · simp only [dictInsert, if_neg h, List.map_cons, List.mem_cons] at hx
      rcases hx with rfl | hx
      · exact Or.inr (by simp)
      · rcases ih x hx with h2 | h2
        · exact Or.inl h2
        · exact Or.inr (by simp [h2])

theorem dictInsert_inv (k t u : String) :
    ∀ d : PyDict, DictInv d → DictInv (dictInsert k ⟨k, t, u⟩ d) := by
  intro d
  induction d with
  | nil => intro _; refine ⟨by simp [dictInsert], ?_⟩; simp [dictInsert]
  | cons p d ih =>
    intro hinv
    obtain ⟨k1, v1⟩ := p
    obtain ⟨hnd, hids⟩ := hinv
    simp only [List.map_cons, List.nodup_cons] at hnd
    by_cases h : k1 = k
    · unfold dictInsert
      rw [if_pos h]
      refine ⟨by simp only [List.map_cons, List.nodup_cons]; exact hnd, ?_⟩
      intro p hp
      rcases List.mem_cons.mp hp with rfl | hp
      · simp [h]
      · exact hids p (List.mem_cons_of_mem _ hp)
    · unfold dictInsert
      rw [if_neg h]
      have ihd : DictInv (dictInsert k ⟨k, t, u⟩ d) :=
        ih ⟨hnd.2, fun p hp => hids p (List.mem_cons_of_mem _ hp)⟩
      refine ⟨?_, ?_⟩
      · simp only [List.map_cons, List.nodup_cons]
        refine ⟨?_, ihd.1⟩
        intro hk1
        rcases dictInsert_keys_sub k _ d k1 hk1 with h2 | h2
        · exact h h2
        · exact hnd.1 h2
      · intro p hp
        rcases List.mem_cons.mp hp with rfl | hp
        · exact hids (k1, v1) (List.mem_cons_self _ _)
        · exact ihd.2 p hp

theorem dictInv_nil : DictInv [] := by
  constructor
  · simp
  · intro p hp
    simp at hp

theorem foldl_dictInv {β : Type} (step : PyDict → β → PyDict)
    (hstep : ∀ d x, DictInv d → DictInv (step d x)) :
    ∀ (l : List β) (d : PyDict), DictInv d → DictInv (l.foldl step d) := by
  intro l
  induction l with
  | nil => intro d h; exact h
  | cons x t ih => intro d h; exact ih (step d x) (hstep d x h)

theorem nidStep_inv (uj : String → String → String) (base : String) (d : PyDict) (a : Anchor)
    (h : DictInv d) : DictInv (nidStep uj base d a) := by
  unfold nidStep
  split
  · split
    · exact h
    · split
      · exact h
      · exact dictInsert_inv _ _ _ d h
  · exact h

theorem suwonStep_inv (uj : String → String → String) (base : String) (d : PyDict) (a : Anchor)
    (h : DictInv d) : DictInv (suwonStep uj base d a) := by
  unfold suwonStep
  split
  · split
    · exact h
    · split
      · exact h
      · exact dictInsert_inv _ _ _ d h
  · exact h

theorem hs4uStep_inv (uj : String → String → String) (base : String) (d : PyDict) (a : Anchor)
    (h : DictInv d) : DictInv (hs4uStep uj base d a) := by
  unfold hs4uStep
  split
  · split
    · exact h
    · split
      · exact h
      · exact dictInsert_inv _ _ _ d h
  · exact h

theorem genericRowStep_inv (uj : String → String → String) (tu fu : String) (d : PyDict)
    (tr : Row) (h : DictInv d) : DictInv (genericRowStep uj tu fu d tr) := by
  unfold genericRowStep
  split
  · exact h
  · split
    · exact h
    · split
      · exact h
      · split
        · exact h
        · exact dictInsert_inv _ _ _ d h

theorem genericAnchorStep_inv (uj : String → String → String) (tu fu : String) (d : PyDict)
    (ap : Anchor × Option Row) (h : DictInv d) : DictInv (genericAnchorStep uj tu fu d ap) := by
  unfold genericAnchorStep
  split
  · exact h
  · split
    · exact h
    · split
      · exact h
      · split
        · exact h
        · exact dictInsert_inv _ _ _ d h

theorem genericDict_inv (uj : String → String → String) (tu fu : String) (soup : Soup) :
    DictInv (genericDict uj tu fu soup) := by
  unfold genericDict
  split
  · exact foldl_dictInv _ (genericAnchorStep_inv uj tu fu) soup.allAs [] dictInv_nil
  · exact foldl_dictInv _ (genericRowStep_inv uj tu fu) soup.trs [] dictInv_nil

theorem finalize_ok (d : PyDict) (h : DictInv d) (n : Nat) : ExtractionOK n (finalize d n) := by
  obtain ⟨hnd, hid⟩ := h
  refine ⟨?_, ?_, ?_⟩
  · exact List.length_take_le n _
  · have hids : (dictValues d).map Item.item_id = d.map Prod.fst := by
      unfold dictValues
      rw [List.map_map]
      exact List.map_congr_left (fun p hp => hid p hp)
    have h1 : ((pySort descNumCont (dictValues d)).map Item.item_id).Nodup := by
      have hperm := (pySort_perm descNumCont (dictValues d)).map Item.item_id
      exact hperm.nodup_iff.mpr (by rw [hids]; exact hnd)
    exact List.Nodup.sublist (List.Sublist.map _ (List.take_sublist n _)) h1
  · have hp := pySort_pairwise descNumCont descNumCont_asymm descNumCont_negtrans (dictValues d)
    have hp2 : (pySort descNumCont (dictValues d)).Pairwise
        (fun x y => pyIntId y ≤ pyIntId x) := by
      refine hp.imp ?_
      intro a b hab
      simp only [descNumCont, decide_eq_false_iff_not] at hab
      omega
    exact List.Pairwise.sublist (List.take_sublist n _) hp2

theorem parse_nid_ok (uj : String → String → String) (soup : Soup) (base : String)
    (n : Nat) (dbg : Bool) : ExtractionOK n (parse_nid_or_kr uj soup base n dbg) :=
  finalize_ok _ (foldl_dictInv _ (nidStep_inv uj base) _ [] dictInv_nil) n

theorem parse_suwon_ok (uj : String → String → String) (soup : Soup) (base : String)
    (n : Nat) (dbg : Bool) : ExtractionOK n (parse_health_suwon uj soup base n dbg) :=
  finalize_ok _ (foldl_dictInv _ (suwonStep_inv uj base) _ [] dictInv_nil) n

theorem parse_hs4u_ok (uj : String → String → String) (soup : Soup) (base : String)
    (n : Nat) (dbg : Bool) : ExtractionOK n (parse_hs4u uj soup base n dbg) :=
  finalize_ok _ (foldl_dictInv _ (hs4uStep_inv uj base) _ [] dictInv_nil) n

theorem parse_router_ok (uj : String → String → String) (tu : String) (n : Nat)
    (fu : String) (soup : Soup) (dbg : Bool) :
    ExtractionOK n (parse_html_list_number_id uj tu n fu soup dbg) := by
  unfold parse_html_list_number_id
  split
  · exact parse_nid_ok uj soup fu n dbg
  · split
    · exact parse_suwon_ok uj soup fu n dbg
    · split
      · exact parse_hs4u_ok uj soup fu n dbg
      · exact finalize_ok _ (genericDict_inv uj tu fu soup) n

/-- Claim C4: every extraction strategy (the three site parsers and the
generic table extractor, and hence the router over them) returns at most
`latest_n` items, with pairwise-distinct `item_id`s, sorted descending by
the numeric value of `item_id`. -/
theorem c4_extraction_contract (uj : String → String → String) (soup : Soup)
    (base tu fu : String) (n : Nat) (dbg : Bool) :
    ExtractionOK n (parse_nid_or_kr uj soup base n dbg) ∧
    ExtractionOK n (parse_health_suwon uj soup base n dbg) ∧
    ExtractionOK n (parse_hs4u uj soup base n dbg) ∧
    ExtractionOK n (finalize (genericDict uj tu fu soup) n) ∧
    ExtractionOK n (parse_html_list_number_id uj tu n fu soup dbg) :=
  ⟨parse_nid_ok uj soup base n dbg, parse_suwon_ok uj soup base n dbg,
    parse_hs4u_ok uj soup base n dbg, finalize_ok _ (genericDict_inv uj tu fu soup) n,
    parse_router_ok uj tu n fu soup dbg⟩

theorem pySort_of_pairwise {α : Type} (cont : α → α → Bool) :
    ∀ l : List α, l.Pairwise (fun x y => cont x y = false) → pySort cont l = l := by
  intro l
  induction l with
  | nil => intro _; rfl
  | cons a t ih =>
    intro hp
    obtain ⟨ha, ht⟩ := List.pairwise_cons.mp hp
    unfold pySort
    rw [ih ht]
    cases t with
    | nil => rfl
    | cons b t2 =>
      unfold pyInsert
      rw [if_neg]
      simp [ha b (List.mem_cons_self b t2)]

theorem listLt_replicate (z : Char) : ∀ k j : Nat, k ≤ j →
    listLt (List.replicate j z) (List.replicate k z) = false := by
  intro k
  induction k with
  | zero => intro j _; simp [listLt]
  | succ k ih =>
    intro j hj
    cases j with
    | zero => omega
    | succ j2 =>
      simp only [List.replicate_succ, listLt, lt_self_iff_false, if_false]
      exact ih j2 (by omega)

theorem c1id_desc (j k : Nat) (h : k ≤ j) : descStrCont (c1id j) (c1id k) = false := by
  unfold descStrCont pyStrLt c1id
  show listLt (Char.ofNat 49 :: List.replicate j (Char.ofNat 48))
    (Char.ofNat 49 :: List.replicate k (Char.ofNat 48)) = false
  simp only [listLt, lt_self_iff_false, if_false]
  exact listLt_replicate _ k j h

theorem c1id_inj (j k : Nat) (h : c1id j = c1id k) : j = k := by
  have h2 := congrArg String.data h
  simp only [c1id] at h2
  have h3 := congrArg List.length h2
  simpa using h3

theorem c1ex_sorted : c1ex.Pairwise (fun x y => descStrCont x y = false) := by
  unfold c1ex
  refine List.pairwise_cons.mpr ⟨?_, ?_⟩
  · intro y hy
    obtain ⟨i, _, rfl⟩ := List.mem_map.mp hy
    show descStrCont "9" (c1id (3000 - i)) = false
    unfold descStrCont pyStrLt c1id
    show listLt ("9").data (Char.ofNat 49 :: List.replicate (3000 - i) (Char.ofNat 48)) = false
    have h9 : ("9").data = [Char.ofNat 57] := by decide
    rw [h9]
    simp only [listLt]
    rw [if_neg (by decide), if_pos (by decide)]
  · rw [List.pairwise_map]
    exact (List.pairwise_lt_range 3000).imp (fun hij => c1id_desc _ _ (by omega))

theorem save_compact_c1ex :
    save_compact_entry c1ex = "9" :: (List.range 2999).map (fun i => c1id (3000 - i)) := by
  unfold save_compact_entry
  rw [pySort_of_pairwise _ _ c1ex_sorted]
  unfold c1ex
  show List.take (2999 + 1) _ = _
  rw [List.take_succ_cons, ← List.map_take, List.take_range]
  rfl

theorem c1id1_mem_c1ex : c1id 1 ∈ c1ex := by
  unfold c1ex
  refine List.mem_cons_of_mem _ (List.mem_map.mpr ⟨2999, List.mem_range.mpr (by omega), rfl⟩)

theorem nine_mem_compact : "9" ∈ save_compact_entry c1ex := by
  rw [save_compact_c1ex]
  exact List.mem_cons_self _ _

theorem c1id1_not_mem_compact : c1id 1 ∉ save_compact_entry c1ex := by
  rw [save_compact_c1ex]
  intro h
  rcases List.mem_cons.mp h with h2 | h2
  · exact absurd h2 (by decide)
  · obtain ⟨i, hi, heq⟩ := List.mem_map.mp h2
    have := c1id_inj _ _ heq
    have := List.mem_range.mp hi
    omega

theorem c1ex_nodup : c1ex.Nodup := by
  unfold c1ex
  refine List.nodup_cons.mpr ⟨?_, ?_⟩
  · intro h9
    obtain ⟨i, hi, heq⟩ := List.mem_map.mp h9
    have h2 := congrArg (fun s : String => s.data.length) heq
    have := List.mem_range.mp hi
    simp [c1id] at h2
    omega
  · refine List.Nodup.map_on ?_ (List.nodup_range 3000)
    intro i hi j hj hf
    have := c1id_inj _ _ hf
    have := List.mem_range.mp hi
    have := List.mem_range.mp hj
    omega

/-- Claim C1 is false on the code: `save_state` trims with a plain string
sort (`sorted(v, reverse=True)`), not a numeric one. On the 3001-member set
`c1ex`, the persisted list keeps `"9"` (numerically the smallest member)
and drops `"10"` (`c1id 1`), which is numerically larger — so the retained
ids are not the 3000 numerically largest. -/
theorem c1_counterexample :
    c1ex.Nodup ∧ c1ex.length = 3001 ∧
    "9" ∈ c1ex ∧ c1id 1 ∈ c1ex ∧ pyInt "9" < pyInt (c1id 1) ∧
    "9" ∈ save_compact_entry c1ex ∧ c1id 1 ∉ save_compact_entry c1ex :=
  ⟨c1ex_nodup, by simp [c1ex], List.mem_cons_self _ _, c1id1_mem_c1ex, by decide,
    nine_mem_compact, c1id1_not_mem_compact⟩

/-- Claim C1, amended: for every state mapping passed to `save_state`, each
target's persisted identifier list has length at most 3000 (exactly
`min 3000 |SeenSet|`), and consists of exactly the 3000 *lexicographically*
largest identifiers of that target's SeenSet, compared as strings, not
numerically (all of them when the set has 3000 or fewer members): every id
kept is ≥ (as a string) every id dropped, the list is stored in descending
string order, and no ids are invented or duplicated. -/
theorem c1_amended (v : List String) :
    (save_compact_entry v).length = min 3000 v.length ∧
    (∀ x, x ∈ save_compact_entry v → x ∈ v) ∧
    (v.Nodup → (save_compact_entry v).Nodup) ∧
    (save_compact_entry v).Pairwise (fun x y => pyStrLt x y = false) ∧
    (∀ x, x ∈ v → x ∉ save_compact_entry v →
      ∀ y, y ∈ save_compact_entry v → pyStrLt y x = false) := by
  have hperm := pySort_perm descStrCont v
  have hpw := pySort_pairwise descStrCont descStrCont_asymm descStrCont_negtrans v
  refine ⟨?_, ?_, ?_, ?_, ?_⟩
  · unfold save_compact_entry
    rw [List.length_take, hperm.length_eq]
  · intro x hx
    exact hperm.mem_iff.mp ((List.take_sublist _ _).subset hx)
  · intro hnd
    exact List.Nodup.sublist (List.take_sublist _ _) (hperm.nodup_iff.mpr hnd)
  · exact List.Pairwise.sublist (List.take_sublist _ _) hpw
  · intro x hxv hxc y hyc
    have hxs : x ∈ pySort descStrCont v := hperm.mem_iff.mpr hxv
    rw [← List.take_append_drop 3000 (pySort descStrCont v)] at hxs hpw
    rcases List.mem_append.mp hxs with h2 | h2
    · exact absurd h2 hxc
    · exact (List.pairwise_append.mp hpw).2.2 y hyc x h2

/-- Witness for `c1_amended` at the concrete 3001-id set `c1ex`: the kept id
`"9"` is lexicographically ≥ the dropped id `"10"`. -/
theorem c1_witness : pyStrLt "9" (c1id 1) = false :=
  (c1_amended c1ex).2.2.2.2 (c1id 1) c1id1_mem_c1ex c1id1_not_mem_compact "9" nine_mem_compact

theorem pyMem_eq_decide (x : String) : ∀ s : List String, pyMem x s = decide (x ∈ s) := by
  intro s
  induction s with
  | nil => simp [pyMem]
  | cons y t ih =>
    simp only [pyMem, ih, List.mem_cons]
    rw [show (x == y) = decide (x = y) from rfl]
    cases hxy : decide (x = y) <;> cases hxt : decide (x ∈ t) <;> simp_all

theorem notifyLoop_sent_take (creds : Bool) (sendRes : Nat → Bool) :
    ∀ (l : List Item) (k : Nat) (seen : List String),
      ∃ m, (notifyLoop creds sendRes seen l k).sent = l.take m := by
  intro l
  induction l with
  | nil => intro k seen; exact ⟨0, rfl⟩
  | cons it rest ih =>
    intro k seen
    cases h : telegram_send creds (sendRes k) with
    | none =>
      obtain ⟨m, hm⟩ := ih (k + 1) (pySetAdd it.item_id seen)
      refine ⟨m + 1, ?_⟩
      simp only [notifyLoop, h]
      simp [hm, List.take_succ_cons]
    | some e => exact ⟨0, by simp [notifyLoop, h]⟩

theorem notifyLoop_all_ok (sendRes : Nat → Bool) (hall : ∀ k, sendRes k = true) :
    ∀ (l : List Item) (k : Nat) (seen : List String),
      notifyLoop true sendRes seen l k =
        ⟨addAll seen (l.map Item.item_id), l, l.length, none⟩ := by
  intro l
  induction l with
  | nil => intro k seen; rfl
  | cons it rest ih =>
    intro k seen
    have hsend : telegram_send true (sendRes k) = none := by simp [telegram_send, hall k]
    simp only [notifyLoop, hsend]
    rw [ih (k + 1) (pySetAdd it.item_id seen)]
    simp [addAll]

theorem notifyLoop_fail (sendRes : Nat → Bool) :
    ∀ (l : List Item) (k0 k : Nat) (seen : List String), k < l.length →
      (∀ j, j < k → sendRes (k0 + j) = true) → sendRes (k0 + k) = false →
      notifyLoop true sendRes seen l k0 =
        ⟨addAll seen ((l.take k).map Item.item_id), l.take k, k + 1, some .httpError⟩ := by
  intro l
  induction l with
  | nil => intro k0 k seen hk; simp at hk
  | cons it rest ih =>
    intro k0 k seen hk hpre hfail
    cases k with
    | zero =>
      have h0 : sendRes k0 = false := by simpa using hfail
      have hsend : telegram_send true (sendRes k0) = some .httpError := by
        simp [telegram_send, h0]
      simp [notifyLoop, hsend, addAll]
    | succ k2 =>
      have h0 : sendRes k0 = true := by
        have := hpre 0 (by omega)
        simpa using this
      have hsend : telegram_send true (sendRes k0) = none := by simp [telegram_send, h0]
      have hpre2 : ∀ j, j < k2 → sendRes (k0 + 1 + j) = true := by
        intro j hj
        have h2 := hpre (j + 1) (by omega)
        rwa [show k0 + (j + 1) = k0 + 1 + j by omega] at h2
      have hfail2 : sendRes (k0 + 1 + k2) = false := by
        rwa [show k0 + (k2 + 1) = k0 + 1 + k2 by omega] at hfail
      simp only [notifyLoop, hsend]
      rw [ih (k0 + 1) k2 (pySetAdd it.item_id seen) (by simpa using hk) hpre2 hfail2]
      simp [List.take_succ_cons, addAll]

/-- Claim C3: for every SeenSet and extracted item sequence, the items
selected for notification are exactly the extracted items whose `item_id`
is not a member of the SeenSet; the notification order is ascending by
numeric `item_id` (the loop sends a prefix of that ascending list, the
whole list when every send succeeds). -/
theorem c3_reconciler (items : List Item) (seen : List String) (creds : Bool)
    (sendRes : Nat → Bool) :
    (sortedNewItems items seen).Perm
      (items.filter (fun it => decide (it.item_id ∉ seen))) ∧
    (sortedNewItems items seen).Pairwise (fun x y => pyIntId x ≤ pyIntId y) ∧
    (∃ m, (notifyLoop creds sendRes seen (sortedNewItems items seen) 0).sent =
      (sortedNewItems items seen).take m) ∧
    (creds = true → (∀ k, sendRes k = true) →
      (notifyLoop creds sendRes seen (sortedNewItems items seen) 0).sent =
        sortedNewItems items seen) := by
  have hfe : new_items items seen = items.filter (fun it => decide (it.item_id ∉ seen)) := by
    unfold new_items
    refine List.filter_congr ?_
    intro it _
    rw [pyMem_eq_decide]
    cases h : decide (it.item_id ∈ seen) <;> simp_all
  refine ⟨?_, ?_, ?_, ?_⟩
  · unfold sortedNewItems
    exact (pySort_perm _ _).trans (by rw [hfe])
  · unfold sortedNewItems
    refine (pySort_pairwise ascNumCont ascNumCont_asymm ascNumCont_negtrans _).imp ?_
    intro a b hab
    simp only [ascNumCont, decide_eq_false_iff_not] at hab
    omega
  · exact notifyLoop_sent_take creds sendRes _ 0 seen
  · intro h1 h2
    subst h1
    rw [notifyLoop_all_ok sendRes h2]

/-- Witness for `c3_reconciler`: with all sends succeeding, the whole
ascending new-item list is notified. -/
theorem c3_witness :
    (notifyLoop true sendAllOk ["10"] (sortedNewItems itemsC3 ["10"]) 0).sent =
      sortedNewItems itemsC3 ["10"] :=
  (c3_reconciler itemsC3 ["10"] true sendAllOk).2.2.2 rfl (fun _ => rfl)

theorem pyMem_append_single (y x : String) : ∀ s, pyMem y (s ++ [x]) = (pyMem y s || (y == x)) := by
  intro s
  induction s with
  | nil => simp [pyMem]
  | cons z t ih => simp [pyMem, ih, Bool.or_assoc]

theorem pyMem_pySetAdd (y x : String) (s : List String) :
    pyMem y (pySetAdd x s) = (pyMem y s || (y == x)) := by
  unfold pySetAdd
  by_cases h : pyMem x s = true
  · rw [if_pos h]
    cases hyx : (y == x)
    · simp
    · have : y = x := eq_of_beq hyx
      subst this
      simp [h]
  · rw [if_neg h]
    exact pyMem_append_single y x s

theorem pyMem_addAll (y : String) : ∀ (ids s : List String),
    pyMem y (addAll s ids) = (pyMem y s || pyMem y ids) := by
  intro ids
  induction ids with
  | nil => intro s; simp [addAll, pyMem]
  | cons x t ih =>
    intro s
    show pyMem y (addAll (pySetAdd x s) t) = _
    rw [ih, pyMem_pySetAdd]
    simp only [pyMem]
    cases pyMem y s <;> cases (y == x) <;> cases pyMem y t <;> rfl

theorem get_not_mem_take : ∀ (l : List String) (k : Nat) (hk : k < l.length), l.Nodup →
    pyMem (l.get ⟨k, hk⟩) (l.take k) = false := by
  intro l
  induction l with
  | nil => intro k hk; simp at hk
  | cons a t ih =>
    intro k hk hnd
    cases k with
    | zero => simp [pyMem]
    | succ k2 =>
      rw [List.take_succ_cons, List.get_cons_succ]
      simp only [pyMem]
      rw [ih k2 (by simpa using hk) (List.nodup_cons.mp hnd).2]
      have ha : a ∉ t := (List.nodup_cons.mp hnd).1
      cases hbeq : (t.get ⟨k2, by simpa using hk⟩ == a)
      · simp
      · exact absurd (eq_of_beq hbeq ▸ List.get_mem t k2 _) ha

/-- Claim C2 is false on the code: the send loop has no per-item exception
handling, so a failed send aborts the rest of the batch. Concretely: the
two-item page yields two new items (ids 10 and 11), the first send fails
while the second would succeed (`sendFail0 1 = true`), yet only one send is
attempted, nothing is sent, and the target raises — the send for the
subsequent item of the batch is never attempted. -/
theorem c2_counterexample :
    (sortedNewItems (parse_html_list_number_id ujEx targetEx.url targetEx.latest_n
      "http://example.com/list" soupEx false) []).length = 2 ∧
    sendFail0 1 = true ∧
    run_target ujEx true fetchExOk sendFail0 targetEx [] =
      ⟨[], [], 1, [false], some .httpError⟩ := by
  refine ⟨by decide, by decide, by decide⟩

/-- Claim C2, amended: if the notification send for one item of a per-target
batch fails, the sends for the subsequent items of that batch are NOT
attempted in that run (the exception aborts the loop after exactly `k + 1`
send attempts, with only the first `k` items sent and marked seen); the
failed item's id is not added to the SeenSet (so that item, and the later
ones, are retried on the next run); and the run as a whole does not crash —
`main` catches every per-target exception and always completes. -/
theorem c2_amended (sendRes : Nat → Bool) (l : List Item) (seen : List String) (k : Nat)
    (hk : k < l.length) (hpre : ∀ j, j < k → sendRes j = true) (hfail : sendRes k = false)
    (hnd : (l.map Item.item_id).Nodup)
    (hnew : pyMem (l.get ⟨k, hk⟩).item_id seen = false) :
    notifyLoop true sendRes seen l 0 =
      ⟨addAll seen ((l.take k).map Item.item_id), l.take k, k + 1, some .httpError⟩ ∧
    pyMem (l.get ⟨k, hk⟩).item_id (notifyLoop true sendRes seen l 0).seen = false ∧
    (∀ (uj : String → String → String) (creds : Bool) (fetch : Nat → Nat → Fetched)
      (sr : Nat → Nat → Bool) (targets : List Target) (st0 : PyState), targets ≠ [] →
      (pymain uj creds fetch sr targets st0).isSome = true) := by
  have hrs := notifyLoop_fail sendRes l 0 k seen hk
    (fun j hj => by simpa using hpre j hj) (by simpa using hfail)
  refine ⟨hrs, ?_, ?_⟩
  · rw [hrs]
    show pyMem _ (addAll seen ((l.take k).map Item.item_id)) = false
    rw [pyMem_addAll, hnew]
    simp only [Bool.false_or]
    rw [List.map_take]
    have hk2 : k < (l.map Item.item_id).length := by simpa using hk
    have hg : (l.get ⟨k, hk⟩).item_id = (l.map Item.item_id).get ⟨k, hk2⟩ := by
      simp [List.getElem_map]
    rw [hg]
    exact get_not_mem_take _ k hk2 hnd
  · intro uj creds fetch sr targets st0 hne
    unfold pymain
    rw [if_neg (by simpa [List.isEmpty_iff] using hne)]
    rfl

/-- Witness for `c2_amended`: three fresh items, the first send fails —
nothing is sent or marked seen, one attempt is made, the error escapes. -/
theorem c2_witness :
    notifyLoop true sendFail0 [] (sortedNewItems itemsC3 []) 0 =
      ⟨[], [], 1, some .httpError⟩ := by
  have h := (c2_amended sendFail0 (sortedNewItems itemsC3 []) [] 0 (by decide)
    (fun j hj => absurd hj (by omega)) (by decide) (by decide) (by decide)).1
  simpa using h

theorem resolve_cond_eq (href : String) :
    (!placeholderHrefs.contains href)
      = (!(href == "#") && !(href == "javascript:void(0);") && !(href == "javascript:void(0)")) := by
  simp only [placeholderHrefs, List.contains, List.elem]
  cases h1 : href == "#" <;> cases h2 : href == "javascript:void(0);" <;>
    cases h3 : href == "javascript:void(0)" <;> simp_all

theorem rowFullUrl_eq_spec (uj : String → String → String) (tu fu href onclick : String) :
    rowFullUrl uj tu fu href onclick = specResolveUrl uj tu fu href onclick := by
  unfold rowFullUrl specResolveUrl
  rw [resolve_cond_eq]
  rcases Bool.eq_false_or_eq_true (href == "#") with h1 | h1 <;>
    rcases Bool.eq_false_or_eq_true (href == "javascript:void(0);") with h2 | h2 <;>
      rcases Bool.eq_false_or_eq_true (href == "javascript:void(0)") with h3 | h3 <;>
        simp [h1, h2, h3, Bool.and_assoc]

/-- Claim C5: for every row accepted by pass 1 of the generic table extractor
(nonempty cells, numeric first cell, a first anchor with nonempty text), the
inserted item's URL follows the spec's precedence `specResolveUrl`:
(a) real href resolved against the final URL, else (b) quoted onclick
literal resolved against the final URL, else (c) the target list URL. -/
theorem c5_url_precedence (uj : String → String → String) (tu fu : String) (d : PyDict)
    (tr : Row) (a : Anchor) (h1 : tr.tds.isEmpty = false)
    (h2 : pyIsDigit (tr.tds.headD "") = true)
    (h3 : tr.anchors.head? = some a) (h4 : a.text ≠ "") :
    genericRowStep uj tu fu d tr =
      dictInsert (tr.tds.headD "")
        ⟨tr.tds.headD "", a.text,
          specResolveUrl uj tu fu (pyStrip (a.href.getD "")) (pyStrip (a.onclick.getD ""))⟩ d := by
  simp only [List.headD_eq_head?_getD] at h2
  unfold genericRowStep
  simp [h1, h2, h3, h4, rowFullUrl_eq_spec]

/-- Witness for `c5_url_precedence`, on the spec's own scenario: href
`javascript:void(0)` with onclick `go('view.php?id=42')` resolves the
onclick literal `view.php?id=42` against the page's base URL, not the list
URL. -/
theorem c5_witness :
    genericRowStep ujEx "LIST" "http://base/" [] rowC5 =
      [("42", ⟨"42", "T", "http://base/view.php?id=42"⟩)] := by
  have h := c5_url_precedence ujEx "LIST" "http://base/" [] rowC5
    ⟨some "javascript:void(0)", some onclickC5, "T"⟩ (by decide) (by decide) (by decide)
    (by decide)
  rw [h]
  decide

theorem runNotifyPhase_parseCalls (creds : Bool) (sendRes : Nat → Bool) (name : String)
    (hasKey : Bool) (seen : List String) (state : PyState) (pcs : List Bool)
    (items : List Item) :
    (runNotifyPhase creds sendRes name hasKey seen state pcs items).parseCalls = pcs := by
  simp only [runNotifyPhase]
  split
  · rfl
  · split <;> rfl

/-- Claim C6: when extraction yields zero items, exactly one diagnostic
re-attempt (a second parse call, with debug instrumentation) is made; if it
also yields zero items, `run_target` raises the extraction-failure error
(`RuntimeError`, modelled `RunErr.parseFail`), which is a distinct kind from
the transport errors (timeout / HTTP). -/
theorem c6_extraction_failure (uj : String → String → String) (creds : Bool)
    (fetch : Nat → Fetched) (sendRes : Nat → Bool) (target : Target) (state : PyState)
    (fu : String) (soup : Soup)
    (htype : target.ttype = "html_list_number_id")
    (hf0 : fetch 0 = .ok fu soup)
    (hp0 : parse_html_list_number_id uj target.url target.latest_n fu soup false = []) :
    (run_target uj creds fetch sendRes target state).parseCalls = [false, true] ∧
    (∀ (fu2 : String) (soup2 : Soup), fetch 1 = .ok fu2 soup2 →
      parse_html_list_number_id uj target.url target.latest_n fu2 soup2 true = [] →
      (run_target uj creds fetch sendRes target state).err = some RunErr.parseFail) ∧
    RunErr.parseFail ≠ RunErr.timeout ∧ RunErr.parseFail ≠ RunErr.httpError := by
  refine ⟨?_, ?_, by decide, by decide⟩
  · simp only [run_target, htype, hf0, hp0, ne_eq, not_true_eq_false, if_false,
      List.isEmpty_nil, if_true]
    cases hf1 : fetch 1 with
    | timeout => rfl
    | httpError => rfl
    | ok fu2 soup2 =>
      by_cases hp1 : parse_html_list_number_id uj target.url target.latest_n fu2 soup2 true = []
      · simp [hp1]
      · have : (parse_html_list_number_id uj target.url target.latest_n fu2 soup2
            true).isEmpty = false := by
          rw [← Bool.not_eq_true, List.isEmpty_iff]
          exact hp1
        simp [this, runNotifyPhase_parseCalls]
  · intro fu2 soup2 hf1 hp1
    simp only [run_target, htype, hf0, hf1, hp0, hp1, ne_eq, not_true_eq_false, if_false,
      List.isEmpty_nil, if_true]

/-- Witness for `c6_extraction_failure` on a page with no extractable rows:
two parse calls (the second in debug mode), then the distinct parse-failure
error. -/
theorem c6_witness :
    (run_target ujEx true fetchExEmpty sendAllOk targetEx []).parseCalls = [false, true] ∧
    (run_target ujEx true fetchExEmpty sendAllOk targetEx []).err = some RunErr.parseFail := by
  have h := c6_extraction_failure ujEx true fetchExEmpty sendAllOk targetEx []
    "http://example.com/list" soupEmptyEx rfl rfl (by decide)
  exact ⟨h.1, h.2.1 "http://example.com/list" soupEmptyEx rfl (by decide)⟩

theorem mainLoop_trace (uj : String → String → String) (creds : Bool)
    (fetch : Nat → Nat → Fetched) (sendRes : Nat → Nat → Bool) :
    ∀ (ts : List Target) (i : Nat) (st : PyState) (errs : List RunErr),
      (mainLoop uj creds fetch sendRes ts i st errs).2.2 =
        ts.map (fun t => Ev.attempt t.name) := by
  intro ts
  induction ts with
  | nil => intro i st errs; rfl
  | cons t ts2 ih =>
    intro i st errs
    simp only [mainLoop]
    simp [ih]

theorem pyLookup_pyDictSet_ne (k name : String) (h : k ≠ name) (v : List String) :
    ∀ st : PyState, pyLookup k (pyDictSet name v st) = pyLookup k st := by
  intro st
  induction st with
  | nil =>
    simp only [pyDictSet, pyLookup]
    rw [if_neg (fun hh => h hh.symm)]
  | cons p t ih =>
    obtain ⟨k1, v1⟩ := p
    unfold pyDictSet
    by_cases h1 : k1 = name
    · rw [if_pos h1]
      unfold pyLookup
      rw [if_neg (fun hh => h (h1 ▸ hh).symm), if_neg (fun hh => h (h1 ▸ hh).symm)]
    · rw [if_neg h1]
      unfold pyLookup
      by_cases h2 : k1 = k
      · rw [if_pos h2, if_pos h2]
      · rw [if_neg h2, if_neg h2]
        exact ih

theorem run_target_other_keys (uj : String → String → String) (creds : Bool)
    (fetch : Nat → Fetched) (sendRes : Nat → Bool) (target : Target) (state : PyState)
    (k : String) (h : k ≠ target.name) :
    pyLookup k (run_target uj creds fetch sendRes target state).state = pyLookup k state := by
  have hrnp : ∀ (hasKey : Bool) (seen : List String) (pcs : List Bool) (items : List Item),
      pyLookup k (runNotifyPhase creds sendRes target.name hasKey seen state pcs items).state
        = pyLookup k state := by
    intro hasKey seen pcs items
    simp only [runNotifyPhase]
    split
    · rfl
    · split
      · exact pyLookup_pyDictSet_ne k target.name h _ state
      · split
        · exact pyLookup_pyDictSet_ne k target.name h _ state
        · rfl
  simp only [run_target]
  split
  · rfl
  · split
    · rfl
    · rfl
    · split
      · split
        · rfl
        · rfl
        · split
          · rfl
          · exact hrnp _ _ _ _
      · exact hrnp _ _ _ _

/-- Claim C7: a run over a nonempty target list attempts every configured
target in order and performs exactly one state-store save, at the end, after
all targets were attempted (the trace is the attempt list followed by the
single save of the final threaded state), regardless of failures; and a
`run_target` call never touches any state entry other than its own target
name, so one target's failure cannot drop another target's saved updates. -/
theorem c7_run_shape (uj : String → String → String) (creds : Bool)
    (fetch : Nat → Nat → Fetched) (sendRes : Nat → Nat → Bool) (targets : List Target)
    (st0 : PyState) (hne : targets ≠ []) :
    (∃ r : MainRes, pymain uj creds fetch sendRes targets st0 = some r ∧
      r.trace = targets.map (fun t => Ev.attempt t.name) ++ [Ev.save (save_state r.state)]) ∧
    (∀ (f : Nat → Fetched) (s : Nat → Bool) (t : Target) (st : PyState) (q : String),
      q ≠ t.name → pyLookup q (run_target uj creds f s t st).state = pyLookup q st) := by
  constructor
  · refine ⟨⟨(mainLoop uj creds fetch sendRes targets 0 st0 []).1,
      (mainLoop uj creds fetch sendRes targets 0 st0 []).2.1,
      (mainLoop uj creds fetch sendRes targets 0 st0 []).2.2 ++
        [Ev.save (save_state (mainLoop uj creds fetch sendRes targets 0 st0 []).1)]⟩, ?_, ?_⟩
    · unfold pymain
      rw [if_neg (by simpa [List.isEmpty_iff] using hne)]
    · show (mainLoop uj creds fetch sendRes targets 0 st0 []).2.2 ++ _ = _
      rw [mainLoop_trace]
  · intro f s t st q hq
    exact run_target_other_keys uj creds f s t st q hq

/-- Witness for `c7_run_shape` on a one-target run. -/
theorem c7_witness :
    ∃ r : MainRes, pymain ujEx true (fun _ => fetchExOk) (fun _ => sendAllOk) [targetEx] [] =
        some r ∧
      r.trace = [targetEx].map (fun t => Ev.attempt t.name) ++ [Ev.save (save_state r.state)] :=
  (c7_run_shape ujEx true (fun _ => fetchExOk) (fun _ => sendAllOk) [targetEx] []
    (by decide)).1

theorem pymain_shape (uj : String → String → String) (creds : Bool)
    (fetch : Nat → Nat → Fetched) (sendRes : Nat → Nat → Bool) (targets : List Target)
    (st0 : PyState) (hne : targets ≠ []) :
    ∃ r : MainRes, pymain uj creds fetch sendRes targets st0 = some r ∧
      r.trace = targets.map (fun t => Ev.attempt t.name) ++ [Ev.save (save_state r.state)] := by
  refine ⟨⟨(mainLoop uj creds fetch sendRes targets 0 st0 []).1,
    (mainLoop uj creds fetch sendRes targets 0 st0 []).2.1,
    (mainLoop uj creds fetch sendRes targets 0 st0 []).2.2 ++
      [Ev.save (save_state (mainLoop uj creds fetch sendRes targets 0 st0 []).1)]⟩, ?_, ?_⟩
  · unfold pymain
    rw [if_neg (by simpa [List.isEmpty_iff] using hne)]
  · show (mainLoop uj creds fetch sendRes targets 0 st0 []).2.2 ++ _ = _
    rw [mainLoop_trace]

/-- Claim C8 is false on the code: with empty credentials the run does NOT
fail fast. Concretely, with `creds = false` and two targets that each have
new items, `telegram_send` raises per target, `main` catches both errors at
the per-target boundary, both targets are attempted, and the run completes
normally with its end-of-run save — the credentials error is scoped exactly
like any per-target error. -/
theorem c8_counterexample :
    pymain ujEx false (fun _ => fetchExOk) (fun _ _ => true) [targetEx, targetEx2] [] =
      some ⟨[], [RunErr.credsMissing, RunErr.credsMissing],
        [Ev.attempt "t1", Ev.attempt "t2", Ev.save []]⟩ := by
  decide

/-- Claim C8, amended: absent credentials make `telegram_send` raise
immediately (before any transport attempt) on every send; the error aborts
that target's batch after exactly one attempt with nothing marked seen, is
caught at the per-target boundary like any other per-target error, and the
run still attempts every target and performs the single end-of-run save.
(It is not a run-level fail-fast precondition; the failure surfaces per
target. Within a run, no send is retried.) -/
theorem c8_amended :
    (∀ postOk : Bool, telegram_send false postOk = some RunErr.credsMissing) ∧
    (∀ (sendRes : Nat → Bool) (seen : List String) (l : List Item) (k : Nat), l ≠ [] →
      notifyLoop false sendRes seen l k = ⟨seen, [], 1, some RunErr.credsMissing⟩) ∧
    (∀ (uj : String → String → String) (fetch : Nat → Nat → Fetched)
      (sendRes : Nat → Nat → Bool) (targets : List Target) (st0 : PyState), targets ≠ [] →
      ∃ r : MainRes, pymain uj false fetch sendRes targets st0 = some r ∧
        r.trace = targets.map (fun t => Ev.attempt t.name) ++ [Ev.save (save_state r.state)]) := by
  refine ⟨fun postOk => rfl, ?_, ?_⟩
  · intro sendRes seen l k hl
    cases l with
    | nil => exact absurd rfl hl
    | cons it rest => rfl
  · intro uj fetch sendRes targets st0 hne
    exact pymain_shape uj false fetch sendRes targets st0 hne

/-- Witness for `c8_amended`: with empty credentials a nonempty batch stops
at one attempt, nothing sent, nothing marked seen. -/
theorem c8_witness :
    notifyLoop false sendAllOk ["5"] itemsC3 0 = ⟨["5"], [], 1, some RunErr.credsMissing⟩ :=
  c8_amended.2.1 sendAllOk ["5"] itemsC3 0 (by decide)

theorem run_target_eq_notify (uj : String → String → String) (creds : Bool)
    (fetch : Nat → Fetched) (sendRes : Nat → Bool) (target : Target) (state : PyState)
    (fu : String) (soup : Soup)
    (htype : target.ttype = "html_list_number_id") (hf0 : fetch 0 = Fetched.ok fu soup)
    (hne : parse_html_list_number_id uj target.url target.latest_n fu soup false ≠ []) :
    run_target uj creds fetch sendRes target state =
      runNotifyPhase creds sendRes target.name (pyLookup target.name state).isSome
        ((pyLookup target.name state).getD []) state [false]
        (parse_html_list_number_id uj target.url target.latest_n fu soup false) := by
  have hie : (parse_html_list_number_id uj target.url target.latest_n fu soup false).isEmpty
      = false := by
    rw [← Bool.not_eq_true, List.isEmpty_iff]
    exact hne
  simp only [run_target, htype, hf0, hie, ne_eq, not_true_eq_false, if_false,
    Bool.false_eq_true]

theorem runNotifyPhase_fail (sendRes : Nat → Bool) (name : String) (hasKey : Bool)
    (seen : List String) (state : PyState) (pcs : List Bool) (items : List Item) (k : Nat)
    (hk : k < (sortedNewItems items seen).length)
    (hpre : ∀ j, j < k → sendRes j = true) (hfail : sendRes k = false) :
    runNotifyPhase true sendRes name hasKey seen state pcs items =
      ⟨if hasKey then
          pyDictSet name (addAll seen (((sortedNewItems items seen).take k).map Item.item_id))
            state
        else state,
        (sortedNewItems items seen).take k, k + 1, pcs, some RunErr.httpError⟩ := by
  have hne2 : (new_items items seen).isEmpty = false := by
    rw [← Bool.not_eq_true, List.isEmpty_iff]
    intro h0
    rw [sortedNewItems, h0] at hk
    simp [pySort] at hk
  have hnl := notifyLoop_fail sendRes (sortedNewItems items seen) 0 k seen hk
    (fun j hj => by simpa using hpre j hj) (by simpa using hfail)
  simp only [runNotifyPhase, hne2, Bool.false_eq_true, if_false, hnl]

/-- Claim C9: persistence of a partially-notified batch is asymmetric. If
the target's name is a key of the state, the shared `seen` set is mutated in
place, so the ids notified before the failure are in the state the run-final
save persists; if the name was absent, `state[name] = seen` is skipped on
the exception, the whole batch's ids are discarded, and those notices are
re-sent next run. -/
theorem c9_persistence_asymmetry (uj : String → String → String) (sendRes : Nat → Bool)
    (fetch : Nat → Fetched) (target : Target) (state : PyState) (fu : String) (soup : Soup)
    (items : List Item) (k : Nat)
    (htype : target.ttype = "html_list_number_id")
    (hf0 : fetch 0 = Fetched.ok fu soup)
    (hitems : parse_html_list_number_id uj target.url target.latest_n fu soup false = items)
    (hk : k < (sortedNewItems items ((pyLookup target.name state).getD [])).length)
    (hpre : ∀ j, j < k → sendRes j = true) (hfail : sendRes k = false) :
    (∀ s0, pyLookup target.name state = some s0 →
      run_target uj true fetch sendRes target state =
        ⟨pyDictSet target.name
            (addAll s0 (((sortedNewItems items s0).take k).map Item.item_id)) state,
          (sortedNewItems items s0).take k, k + 1, [false], some RunErr.httpError⟩) ∧
    (pyLookup target.name state = none →
      run_target uj true fetch sendRes target state =
        ⟨state, (sortedNewItems items []).take k, k + 1, [false], some RunErr.httpError⟩ ∧
      pyLookup target.name (run_target uj true fetch sendRes target state).state = none) := by
  have hne : parse_html_list_number_id uj target.url target.latest_n fu soup false ≠ [] := by
    rw [hitems]
    intro h0
    subst h0
    simp [sortedNewItems, new_items, pySort] at hk
  have hrt := run_target_eq_notify uj true fetch sendRes target state fu soup htype hf0 hne
  rw [hitems] at hrt
  constructor
  · intro s0 hs0
    rw [hs0] at hrt hk
    simp only [Option.getD_some, Option.isSome_some] at hrt hk
    rw [hrt, runNotifyPhase_fail sendRes target.name true s0 state [false] items k hk hpre hfail]
    simp
  · intro hs0
    rw [hs0] at hrt hk
    simp only [Option.getD_none, Option.isSome_none] at hrt hk
    have heq : run_target uj true fetch sendRes target state =
        ⟨state, (sortedNewItems items []).take k, k + 1, [false], some RunErr.httpError⟩ := by
      rw [hrt, runNotifyPhase_fail sendRes target.name false [] state [false] items k hk
        hpre hfail]
      simp
    refine ⟨heq, ?_⟩
    rw [heq]
    exact hs0

/-- Witness for `c9_persistence_asymmetry`: two new items (ids 10 then 11),
the second send fails. With prior history under the key `t1`, the id `10`
is persisted in place; with no prior key, the state stays empty and the
already-notified id `10` is lost (re-sent next run). -/
theorem c9_witness :
    (run_target ujEx true fetchExOk sendOk0 targetEx [("t1", ["5"])]).state =
      [("t1", ["5", "10"])] ∧
    (run_target ujEx true fetchExOk sendOk0 targetEx []).state = [] ∧
    pyLookup "t1" (run_target ujEx true fetchExOk sendOk0 targetEx []).state = none := by
  have hpre : ∀ j, j < 1 → sendOk0 j = true := by
    intro j hj
    have hj0 : j = 0 := by omega
    subst hj0
    rfl
  have h1 := (c9_persistence_asymmetry ujEx sendOk0 fetchExOk targetEx [("t1", ["5"])]
    "http://example.com/list" soupEx
    (parse_html_list_number_id ujEx targetEx.url targetEx.latest_n "http://example.com/list"
      soupEx false) 1 rfl rfl rfl (by decide) hpre rfl).1 ["5"] rfl
  have h2 := (c9_persistence_asymmetry ujEx sendOk0 fetchExOk targetEx []
    "http://example.com/list" soupEx
    (parse_html_list_number_id ujEx targetEx.url targetEx.latest_n "http://example.com/list"
      soupEx false) 1 rfl rfl rfl (by decide) hpre rfl).2 rfl
  refine ⟨?_, ?_, ?_⟩
  · rw [h1]
    decide
  · rw [h2.1]
  · exact h2.2

/-- Claim C10: `load_state` coerces every stored identifier to a string
(`set(map(str, v))`), so a state file holding JSON numbers is accepted and
each entry is found under its string form; novelty is exact string
membership, so ids that are numerically equal but differ as strings
(`"07"` vs `"7"`) are distinct notices — an item with id `"07"` is selected
as new even when the loaded set holds the number `7`. -/
theorem c10_string_coercion :
    (∀ (vs : List JVal) (x : JVal), x ∈ vs →
      pyMem (pyStrOfJVal x) (load_state_entry vs) = true) ∧
    (pyStrOfJVal (JVal.n 7) = "7" ∧ pyStrOfJVal (JVal.s "7") = "7") ∧
    (pyInt "07" = pyInt "7" ∧ "07" ≠ "7") ∧
    (pyMem "7" (load_state_entry [JVal.n 7]) = true ∧
      pyMem "07" (load_state_entry [JVal.n 7]) = false) ∧
    new_items [⟨"07", "T", "U"⟩] (load_state_entry [JVal.n 7]) = [⟨"07", "T", "U"⟩] := by
  refine ⟨?_, by decide, by decide, by decide, by decide⟩
  intro vs x hx
  unfold load_state_entry pySetOfList
  rw [pyMem_addAll]
  have : pyMem (pyStrOfJVal x) (vs.map pyStrOfJVal) = true := by
    rw [pyMem_eq_decide]
    simp only [decide_eq_true_eq]
    exact List.mem_map_of_mem pyStrOfJVal hx
  rw [this]
  simp

/-- Witness for `c10_string_coercion`: the numeric entry `7` is found under
its string coercion after loading. -/
theorem c10_witness : pyMem (pyStrOfJVal (JVal.n 7)) (load_state_entry [JVal.n 7]) = true :=
  c10_string_coercion.1 [JVal.n 7] (JVal.n 7) (List.mem_singleton_self _)
